import Mathlib

/-!
Verification development for the vizier-inference-api repository.

Shallow embedding of the code paths relevant to the frozen claims:
* the per-job worker loop (src/app/worker/worker.py, job.py, ecs_runner.py,
  src/app/infra/sqs_client.py);
* the study status endpoint and job model
  (src/vizier_backend/apps/studies/views.py, models.py);
* the DICOM/NIfTI/NPZ normalization pipeline
  (src/vizier_backend/services/dicom_pipeline.py);
* the segmentation legend construction
  (src/vizier_backend/apps/studies/views.py).

Machine floats are modelled as exact rationals; NaN and the infinities get
an explicit sum type where they matter. Fallible code returns Except.
-/

namespace Vizier

/-! ## Worker model

`process_one_job` (src/app/worker/worker.py lines 40-63) runs a try block:
set_status running, validate_input, run_biomedparse_task, validate_output,
set_status completed, delete_message; any exception jumps to the handler,
which writes the failed status and deliberately does not delete the message.
The observable behaviour is the sequence of external effects, which we record
as an event trace. -/

inductive WorkerEvent
  | statusWrite (s : String)  -- job.set_status: write job_dir/status.txt
  | inputCheck                -- job.validate_input: require input/input.npz
  | taskLaunch                -- ecs_runner: ecs.run_task
  | taskWait                  -- ecs_runner: poll describe_tasks until STOPPED
  | outputCheck               -- job.validate_output: require output/input.npz
  | ackMessage                -- sqs_client.delete_message
deriving DecidableEq, Repr

/-- Outcome of `run_biomedparse_task` (src/app/worker/ecs_runner.py):
the run_task response may report failures (raise before waiting), the wait
loop may exceed `timeout_sec` (TimeoutError), or the task stops with a
container exit code (RuntimeError when non-zero). -/
inductive TaskOutcome
  | launchFailed
  | timedOut
  | exited (code : Int)
deriving DecidableEq, Repr

/-- Environment a single job runs against: whether the input artifact
exists, how the compute task ends, and whether the output artifact exists. -/
structure JobEnv where
  inputPresent : Bool
  task : TaskOutcome
  outputPresent : Bool
deriving DecidableEq, Repr

/-- Event trace of `process_one_job` (src/app/worker/worker.py lines 40-63).
The try block runs the steps in source order; the first failing step
transfers control to the handler, which writes "failed" and does not ack. -/
def process_one_job (env : JobEnv) : List WorkerEvent :=
  let t0 := [WorkerEvent.statusWrite "running", WorkerEvent.inputCheck]
  if !env.inputPresent then
    t0 ++ [WorkerEvent.statusWrite "failed"]
  else
    match env.task with
    | TaskOutcome.launchFailed =>
        t0 ++ [WorkerEvent.taskLaunch, WorkerEvent.statusWrite "failed"]
    | TaskOutcome.timedOut =>
        t0 ++ [WorkerEvent.taskLaunch, WorkerEvent.taskWait,
               WorkerEvent.statusWrite "failed"]
    | TaskOutcome.exited code =>
        if code ≠ 0 then
          t0 ++ [WorkerEvent.taskLaunch, WorkerEvent.taskWait,
                 WorkerEvent.statusWrite "failed"]
        else if !env.outputPresent then
          t0 ++ [WorkerEvent.taskLaunch, WorkerEvent.taskWait,
                 WorkerEvent.outputCheck, WorkerEvent.statusWrite "failed"]
        else
          t0 ++ [WorkerEvent.taskLaunch, WorkerEvent.taskWait,
                 WorkerEvent.outputCheck, WorkerEvent.statusWrite "completed",
                 WorkerEvent.ackMessage]

/-- The status persisted at the end of a trace: the last status.txt write. -/
def persistedStatus (tr : List WorkerEvent) : Option String :=
  tr.foldl (fun acc e =>
    match e with
    | WorkerEvent.statusWrite s => some s
    | _ => acc) none

/-- Whether the queue message was acknowledged (deleted) in a trace. -/
def ackSent (tr : List WorkerEvent) : Bool :=
  tr.contains WorkerEvent.ackMessage

/-- A job run succeeds when the input exists, the task exits with code 0,
and the output artifact exists. -/
def jobSucceeds (env : JobEnv) : Bool :=
  env.inputPresent && env.task == TaskOutcome.exited 0 && env.outputPresent

/-- The full success trace of `process_one_job`, in source order. -/
def successTrace : List WorkerEvent :=
  [WorkerEvent.statusWrite "running", WorkerEvent.inputCheck,
   WorkerEvent.taskLaunch, WorkerEvent.taskWait, WorkerEvent.outputCheck,
   WorkerEvent.statusWrite "completed", WorkerEvent.ackMessage]

/-- Event `a` occurs strictly before event `b` somewhere in the trace. -/
def occursBefore (a b : WorkerEvent) (tr : List WorkerEvent) : Prop :=
  ∃ i j : Fin tr.length, (i : Nat) < j ∧ tr.get i = a ∧ tr.get j = b

instance (a b : WorkerEvent) (tr : List WorkerEvent) :
    Decidable (occursBefore a b tr) := by
  unfold occursBefore; infer_instance

/-- Canonical rank of each worker step; a terminal status write (completed
or failed) ranks after every processing step and before the ack. -/
def eventRank : WorkerEvent → Nat
  | WorkerEvent.statusWrite s => if s = "running" then 0 else 5
  | WorkerEvent.inputCheck => 1
  | WorkerEvent.taskLaunch => 2
  | WorkerEvent.taskWait => 3
  | WorkerEvent.outputCheck => 4
  | WorkerEvent.ackMessage => 6

/-- The all-success environment. -/
def allOkJobEnv : JobEnv := ⟨true, TaskOutcome.exited 0, true⟩

/-- C3: per received queue message, the worker acknowledges the message iff
the persisted outcome is completed; the persisted outcome is completed on
success and failed on any failure (launch error, non-zero exit, timeout or
missing output artifact); and on success the completed write precedes the
acknowledgement. -/
theorem worker_ack_iff_completed (env : JobEnv) :
    (ackSent (process_one_job env) = true ↔
      persistedStatus (process_one_job env) = some "completed")
    ∧ persistedStatus (process_one_job env)
        = some (if jobSucceeds env then "completed" else "failed")
    ∧ (jobSucceeds env = true → process_one_job env = successTrace) := by
  obtain ⟨i, task, o⟩ := env
  cases i <;> cases o <;>
    rcases task with _ | _ | code <;>
      first
        | (refine ⟨by decide, by decide, by decide⟩)
        | (by_cases hc : code = 0 <;>
            simp [process_one_job, persistedStatus, ackSent, jobSucceeds,
                  successTrace, hc])

/-- C3 witness: concrete success run, hypotheses discharged at
`allOkJobEnv`. -/
theorem worker_ack_iff_completed_witness :
    jobSucceeds allOkJobEnv = true ∧ process_one_job allOkJobEnv = successTrace :=
  ⟨by decide, (worker_ack_iff_completed allOkJobEnv).2.2 (by decide)⟩

/-- C5 counterexample: on a fully successful run, input validation does not
occur before the RUNNING status write — the worker writes the running status
first, so the claimed order (validate input, then mark RUNNING) is false. -/
theorem worker_validate_not_before_running :
    ¬ occursBefore WorkerEvent.inputCheck (WorkerEvent.statusWrite "running")
        (process_one_job allOkJobEnv) := by
  decide

/-- C5 amended: within one job the steps occur strictly in the order
mark RUNNING, validate input, launch, wait, validate output, write the
terminal status, acknowledge; every trace is strictly increasing in that
order, and a fully successful run performs exactly that sequence. -/
theorem worker_step_order (env : JobEnv) :
    (process_one_job env).Pairwise (fun a b => eventRank a < eventRank b)
    ∧ (jobSucceeds env = true → process_one_job env = successTrace) := by
  obtain ⟨i, task, o⟩ := env
  cases i <;> cases o <;>
    rcases task with _ | _ | code <;>
      first
        | (refine ⟨by decide, by decide⟩)
        | (by_cases hc : code = 0 <;>
            simp [process_one_job, jobSucceeds, successTrace, hc, eventRank])

/-- C5 witness for the amended claim: concrete success run. -/
theorem worker_step_order_witness :
    jobSucceeds allOkJobEnv = true ∧ process_one_job allOkJobEnv = successTrace :=
  ⟨by decide, (worker_step_order allOkJobEnv).2 (by decide)⟩

/-! ## String primitives

Python str.strip / str.lower / str.upper, modelled structurally over the
character list so that concrete instances reduce in the kernel. -/

/-- Python str.strip(): drop leading and trailing whitespace. -/
def pyStrip (s : String) : String :=
  String.mk
    (((s.toList.dropWhile Char.isWhitespace).reverse.dropWhile
        Char.isWhitespace).reverse)

/-- Python str.lower() (ASCII range, as used by the repository). -/
def pyLower (s : String) : String :=
  String.mk (s.toList.map Char.toLower)

/-- Python str.upper() (ASCII range, as used by the repository). -/
def pyUpper (s : String) : String :=
  String.mk (s.toList.map Char.toUpper)

/-! ## Study status endpoint and Job model

`Job.update_status` (src/vizier_backend/apps/studies/models.py lines 234-243)
and the body of `StudyViewSet.status`
(src/vizier_backend/apps/studies/views.py lines 269-307). Wall-clock
timestamps are passed in as an abstract `now`. -/

/-- Persisted Job record (the fields `update_status` touches). -/
structure Job where
  status : String
  progress_percent : Option ℚ
  started_at : Option Nat
  completed_at : Option Nat
deriving DecidableEq, Repr

/-- `Job.update_status`: set the status unconditionally, update progress
when given, stamp started_at on the first PROCESSING and completed_at on
COMPLETED, then save. -/
def Job.update_status (j : Job) (new_status : String) (progress : Option ℚ)
    (now : Nat) : Job :=
  let j1 : Job := { j with status := new_status }
  let j2 : Job :=
    match progress with
    | some p => { j1 with progress_percent := some p }
    | none => j1
  let j3 : Job :=
    if new_status = "PROCESSING" ∧ j2.started_at = none then
      { j2 with started_at := some now }
    else j2
  if new_status = "COMPLETED" then { j3 with completed_at := some now } else j3

/-- Persisted Study record (the fields the status endpoint touches). -/
structure Study where
  status : String
  inference_job_id : Option String
  job : Option Job
  completed_at : Option Nat
deriving DecidableEq, Repr

/-- Response of `InferenceClient.get_status`. -/
structure RemoteStatus where
  status : Option String
  progress : Option ℚ
deriving DecidableEq, Repr

/-- The fixed vocabulary dict `status_map` in `StudyViewSet.status`. -/
def status_map (normalized : String) : Option String :=
  if normalized = "pending" then some "SUBMITTED"
  else if normalized = "running" then some "PROCESSING"
  else if normalized = "completed" then some "COMPLETED"
  else if normalized = "failed" then some "FAILED"
  else if normalized = "queued" then some "QUEUED"
  else if normalized = "processing" then some "PROCESSING"
  else none

/-- The mapping step of `StudyViewSet.status`:
raw_status is the stripped remote status (missing becomes the empty
string); the dict lookup on its lowercasing defaults to the uppercased raw
string when non-empty, else to UNKNOWN. -/
def map_external_status (rawStatus : Option String) : String :=
  let raw := pyStrip (rawStatus.getD "")
  let normalized := pyLower raw
  (status_map normalized).getD (if raw ≠ "" then pyUpper raw else "UNKNOWN")

/-- Result of one call to the status endpoint: the study record as
persisted after the call, how many remote getStatus calls were made,
whether result materialization (`_create_result_file`) was triggered, and
whether the body raised (the except-handler then answers HTTP 500 and
nothing after the raise point is persisted). -/
structure StatusCheckResult where
  study : Study
  remoteCalls : Nat
  materialized : Bool
  errored : Bool
deriving DecidableEq, Repr

/-- Body of `StudyViewSet.status` after the permission check
(src/vizier_backend/apps/studies/views.py lines 269-307): whenever the
study has an inference_job_id, it queries the remote status and maps it;
`if study.job:` then reads the Django reverse one-to-one accessor, which
raises RelatedObjectDoesNotExist when the study has no Job row — the
except-handler returns a 500 and no study field is written; with a Job
row, the job record is updated and the COMPLETED/FAILED study transitions
apply, guarded only by a not-already-equal check. -/
def study_status_check (study : Study) (remote : RemoteStatus) (now : Nat) :
    StatusCheckResult :=
  match study.inference_job_id with
  | none => ⟨study, 0, false, false⟩
  | some _ =>
    let mapped := map_external_status remote.status
    match study.job with
    | none =>
      -- the remote query already happened; the raise leaves the study as is
      ⟨study, 1, false, true⟩
    | some j =>
      let study1 : Study :=
        { study with job := some (j.update_status mapped remote.progress now) }
      if mapped = "COMPLETED" ∧ study1.status ≠ "COMPLETED" then
        ⟨{ study1 with status := "COMPLETED", completed_at := some now }, 1, true, false⟩
      else if mapped = "FAILED" ∧ study1.status ≠ "FAILED" then
        ⟨{ study1 with status := "FAILED", completed_at := some now }, 1, false, false⟩
      else
        ⟨study1, 1, false, false⟩

/-- A study already persisted as COMPLETED, with a remote job id
(mirrors test_completed_study_status_does_not_call_inference_api). -/
def completedStudy : Study :=
  { status := "COMPLETED", inference_job_id := some "remote-job-123",
    job := none, completed_at := some 0 }

/-- A study already persisted as FAILED, with a remote job id. -/
def failedStudy : Study :=
  { status := "FAILED", inference_job_id := some "remote-job-123",
    job := none, completed_at := some 0 }

/-- C1: a status call on an already COMPLETED study still performs one
remote getStatus query, not zero — contradicting the spec and the
repository test `test_completed_study_status_does_not_call_inference_api`,
which asserts the remote client is not called. -/
theorem completed_study_status_still_queries_remote :
    (study_status_check completedStudy ⟨some "completed", none⟩ 1).remoteCalls = 1
    ∧ completedStudy.status = "COMPLETED" := by
  constructor <;> rfl

/-- A job record persisted in the terminal COMPLETED state. -/
def completedJob : Job :=
  { status := "COMPLETED", progress_percent := some 100,
    started_at := some 0, completed_at := some 0 }

/-- A job record persisted in the terminal FAILED state. -/
def failedJob : Job :=
  { status := "FAILED", progress_percent := none,
    started_at := some 0, completed_at := some 0 }

/-- A FAILED study owning a Job row, with a remote job id. -/
def failedStudyWithJob : Study :=
  { status := "FAILED", inference_job_id := some "remote-job-123",
    job := some failedJob, completed_at := some 0 }

/-- A COMPLETED study owning a Job row, with a remote job id. -/
def completedStudyWithJob : Study :=
  { status := "COMPLETED", inference_job_id := some "remote-job-123",
    job := some completedJob, completed_at := some 0 }

/-- C2 counterexample: a later status inquiry changes a terminal status.
`update_status` overwrites the COMPLETED job status with PROCESSING, and
the endpoint moves a FAILED study (owning a Job row) to COMPLETED when the
remote reports completed. -/
theorem terminal_status_can_change :
    (completedJob.update_status "PROCESSING" none 7).status = "PROCESSING"
    ∧ completedJob.status = "COMPLETED"
    ∧ (study_status_check failedStudyWithJob ⟨some "completed", none⟩ 3).study.status
        = "COMPLETED"
    ∧ failedStudyWithJob.status = "FAILED" := by
  refine ⟨rfl, rfl, ?_, rfl⟩
  decide

/-- C2 amended: status transitions are not guarded at all —
`Job.update_status` applies any requested status unconditionally (so a
terminal job status can be overwritten and non-terminal transitions need
not follow the monotonic order); at the study level the only guard is
skipping the terminal write when the status is already equal, so for a
study owning a Job row a FAILED study can become COMPLETED and a COMPLETED
study can become FAILED; a study with a remote job id but no Job row makes
the endpoint raise (HTTP 500) before any study write, leaving its status
unchanged. -/
theorem update_status_overwrites_unconditionally (j : Job) (s : String)
    (p : Option ℚ) (now : Nat) :
    (j.update_status s p now).status = s
    ∧ (study_status_check failedStudyWithJob ⟨some "completed", none⟩ 3).study.status
        = "COMPLETED"
    ∧ (study_status_check completedStudyWithJob ⟨some "failed", none⟩ 3).study.status
        = "FAILED"
    ∧ (study_status_check failedStudy ⟨some "completed", none⟩ 3).errored = true
    ∧ (study_status_check failedStudy ⟨some "completed", none⟩ 3).study
        = failedStudy := by
  refine ⟨?_, by decide, by decide, by decide, by decide⟩
  unfold Job.update_status
  cases p <;> dsimp only <;> split <;> split <;> rfl

/-- C9 counterexample: the external status string "weird" is outside the
mapping vocabulary, yet the canonical result is "WEIRD", not "UNKNOWN". -/
theorem unrecognized_status_not_unknown :
    map_external_status (some "weird") = "WEIRD"
    ∧ map_external_status (some "weird") ≠ "UNKNOWN" := by
  constructor
  · rfl
  · decide

/-- C9 amended: an external status outside the fixed vocabulary maps to the
trimmed string itself uppercased; only a missing or (after trimming) empty
status maps to the literal UNKNOWN. -/
theorem unrecognized_status_passthrough (s : String)
    (h : status_map (pyLower (pyStrip s)) = none) :
    map_external_status (some s)
      = (if pyStrip s = "" then "UNKNOWN" else pyUpper (pyStrip s)) := by
  unfold map_external_status
  dsimp only
  rw [Option.getD_some, h]
  by_cases he : pyStrip s = "" <;> simp [he]

/-- C9 witness: instantiated at "weird". -/
theorem unrecognized_status_passthrough_witness :
    status_map (pyLower (pyStrip "weird")) = none
    ∧ map_external_status (some "weird")
        = (if pyStrip "weird" = "" then "UNKNOWN" else pyUpper (pyStrip "weird")) :=
  ⟨by decide, unrecognized_status_passthrough "weird" (by decide)⟩

/-! ## DICOM pipeline, value level

`DicomZipToNpzService` intensity normalization and slice resampling
(src/vizier_backend/services/dicom_pipeline.py). Voxels are exact
rationals; NaN and the infinities are explicit so the non-finite handling
of `_normalize_intensity` is observable. -/

/-- A machine float as the pipeline sees it: a finite value (modelled
exactly as a rational) or one of the non-finite values. -/
inductive FloatVal
  | fin (q : ℚ)
  | nan
  | posinf
  | neginf
deriving DecidableEq, Repr

/-- `np.isfinite` on one value. -/
def FloatVal.isFiniteVal : FloatVal → Bool
  | FloatVal.fin _ => true
  | _ => false

/-- Minimum of a list of rationals (0 on the empty list; callers guard). -/
def listMin : List ℚ → ℚ
  | [] => 0
  | x :: xs => xs.foldl min x

/-- Maximum of a list of rationals (0 on the empty list; callers guard). -/
def listMax : List ℚ → ℚ
  | [] => 0
  | x :: xs => xs.foldl max x

/-- `np.clip x lo hi`: clamp below to lo, then above to hi. -/
def clipQ (lo hi x : ℚ) : ℚ := min hi (max x lo)

/-- `np.percentile(l, p)` with the default linear interpolation:
on the ascending sort s of l, position pos = p/100*(n-1), interpolating
between the neighbouring order statistics. -/
def percentileQ (l : List ℚ) (p : ℚ) : ℚ :=
  let s := l.insertionSort (· ≤ ·)
  match s with
  | [] => 0
  | s0 :: _ =>
    let n := s.length
    let pos : ℚ := p / 100 * ((n : ℚ) - 1)
    let i : ℕ := (Int.floor pos).toNat
    let frac : ℚ := pos - Int.floor pos
    let lo := s.getD i s0
    let hi := s.getD (i + 1) lo
    lo + frac * (hi - lo)

/-- The CT window presets `ct_windows` (width, level). -/
def ct_windows : List (String × (ℚ × ℚ)) :=
  [("soft_tissues", (400, 40)), ("lung", (1500, -160)),
   ("brain", (80, 40)), ("bone", (1800, 400))]

/-- Anatomy keyword lists of `_resolve_ct_window_preset_name`. -/
def lungTokens : List String := ["lung", "pulmo", "covid", "chest", "thorax", "torax"]

def brainTokens : List String := ["brain", "neuro", "stroke", "intracran", "cranial"]

def boneTokens : List String := ["bone", "osse", "skelet", "spine", "vertebra", "fracture"]

/-- Whether `needle` is a leading segment of `hay`. -/
def charsStartWith : List Char → List Char → Bool
  | [], _ => true
  | _ :: _, [] => false
  | a :: as, b :: bs => a == b && charsStartWith as bs

/-- Whether `needle` occurs contiguously inside `hay`. -/
def charsContain (hay needle : List Char) : Bool :=
  match hay with
  | [] => needle.isEmpty
  | _ :: t => charsStartWith needle hay || charsContain t needle

/-- Python `token in text` substring containment. -/
def strContainsToken (text token : String) : Bool :=
  charsContain text.toList token.toList

/-- `_resolve_ct_window_preset_name`: lowercase/strip the free-text hint,
return the first keyword class that matches, defaulting to soft tissues. -/
def resolve_ct_window_preset_name (category_hint : Option String) : String :=
  let text := pyLower (pyStrip (category_hint.getD ""))
  if lungTokens.any (fun t => strContainsToken text t) then "lung"
  else if brainTokens.any (fun t => strContainsToken text t) then "brain"
  else if boneTokens.any (fun t => strContainsToken text t) then "bone"
  else "soft_tissues"

/-- `_resolve_ct_window`: look the preset up in the fixed table. -/
def resolve_ct_window (category_hint : Option String) : ℚ × ℚ :=
  (ct_windows.lookup (resolve_ct_window_preset_name category_hint)).getD (0, 0)

/-- `_rescale_to_255`: map [source_min, source_max] linearly onto [0,255];
if the span is at most 1e-8, clip directly to [0,255] instead. -/
def rescale_to_255 (l : List ℚ) (source_min source_max : ℚ) : List ℚ :=
  if source_max - source_min ≤ 1 / 100000000 then l.map (clipQ 0 255)
  else l.map (fun x =>
    clipQ 0 255 ((x - source_min) / (source_max - source_min) * 255))

/-- The non-finite fill step of `_normalize_intensity`: every NaN or
infinite voxel becomes the minimum finite value of the volume. -/
def fillNonFinite (vol : List FloatVal) : List ℚ :=
  let finVals := vol.filterMap (fun v =>
    match v with
    | FloatVal.fin q => some q
    | _ => none)
  let fill := listMin finVals
  vol.map (fun v =>
    match v with
    | FloatVal.fin q => q
    | _ => fill)

/-- Body of `_normalize_intensity` after the non-finite fill (the source
raises only before this point): data already within [0,255] is kept; CT
data is windowed by the anatomy preset and rescaled; anything else is
clipped to the [0.5, 99.5] percentile range and rescaled (the percentiles
of an all-finite array are finite, so the non-finite-percentile fallback of
the source is vacuous here; collapsing bounds clip directly to [0,255]). -/
def normalize_filled (w : List ℚ)
    (exam_modality category_hint : Option String) : List ℚ :=
  if 0 ≤ listMin w ∧ listMax w ≤ 255 then w
  else if pyLower (pyStrip (exam_modality.getD "")) = "ct" then
    rescale_to_255
      (w.map (clipQ
        ((resolve_ct_window category_hint).2 - (resolve_ct_window category_hint).1 / 2)
        ((resolve_ct_window category_hint).2 + (resolve_ct_window category_hint).1 / 2)))
      ((resolve_ct_window category_hint).2 - (resolve_ct_window category_hint).1 / 2)
      ((resolve_ct_window category_hint).2 + (resolve_ct_window category_hint).1 / 2)
  else if percentileQ w (199 / 2) ≤ percentileQ w (1 / 2) then
    w.map (clipQ 0 255)
  else
    rescale_to_255
      (w.map (clipQ (percentileQ w (1 / 2)) (percentileQ w (199 / 2))))
      (percentileQ w (1 / 2)) (percentileQ w (199 / 2))

/-- `_normalize_intensity` (src/vizier_backend/services/dicom_pipeline.py
lines 337-392): empty volumes pass through; a volume with no finite value
raises; otherwise every non-finite voxel is filled with the minimum finite
value and the filled volume is normalized by `normalize_filled`. -/
def normalize_intensity (vol : List FloatVal)
    (exam_modality category_hint : Option String) : Except String (List ℚ) :=
  if vol.isEmpty then Except.ok []
  else if vol.all (fun v => !v.isFiniteVal) then
    Except.error "Input volume has no finite intensity values"
  else
    Except.ok (normalize_filled (fillNonFinite vol) exam_modality category_hint)

/-- `np.linspace(0, z-1, t).astype(int)`: t evenly spaced positions
i*(z-1)/(t-1) over [0, z-1], truncated toward zero — all values are
non-negative, so truncation is natural-number division. -/
def linspace_int_indices (z t : ℕ) : List ℕ :=
  if t = 0 then []
  else if t = 1 then [0]
  else (List.range t).map (fun i => i * (z - 1) / (t - 1))

/-- `_resample_slices` (src/vizier_backend/services/dicom_pipeline.py lines
400-409): keep the volume when configured to, when the target is
non-positive, or when the slice count does not exceed the target;
otherwise select the linspace-truncated indices. The numpy fancy indexing
is modelled by looking every index up (all are in range, see
`resample_slices_spec`). -/
def resample_slices {α : Type} (keep_original_slices : Bool)
    (target_slices : Int) (volume : List α) : List α :=
  if keep_original_slices then volume
  else if target_slices ≤ 0 then volume
  else if (volume.length : Int) ≤ target_slices then volume
  else (linspace_int_indices volume.length target_slices.toNat).filterMap
    (fun i => volume.get? i)

/-- `linspace_int_indices` always yields t indices. -/
theorem linspace_int_indices_length (z t : ℕ) :
    (linspace_int_indices z t).length = t := by
  unfold linspace_int_indices
  split_ifs with h0 h1
  · simp [h0]
  · simp [h1]
  · simp

/-- The j-th linspace index is j*(z-1)/(t-1) (truncated). -/
theorem linspace_int_indices_getD (z t j dn : ℕ) (hj : j < t) :
    (linspace_int_indices z t).getD j dn = j * (z - 1) / (t - 1) := by
  unfold linspace_int_indices
  split_ifs with h0 h1
  · omega
  · have hj0 : j = 0 := by omega
    subst hj0
    simp [h1]
  · have hlen : j < ((List.range t).map (fun i => i * (z - 1) / (t - 1))).length := by
      simpa using hj
    rw [List.getD_eq_getElem?_getD, List.getElem?_eq_getElem hlen]
    simp

/-- Every linspace index is a valid slice index. -/
theorem linspace_int_indices_lt (z t : ℕ) (hz : 0 < z) :
    ∀ i ∈ linspace_int_indices z t, i < z := by
  unfold linspace_int_indices
  split_ifs with h0 h1
  · simp
  · simpa using hz
  · intro i hi
    simp only [List.mem_map, List.mem_range] at hi
    obtain ⟨j, hj, rfl⟩ := hi
    have hle : j * (z - 1) / (t - 1) ≤ (t - 1) * (z - 1) / (t - 1) :=
      Nat.div_le_div_right (Nat.mul_le_mul_right _ (by omega))
    have hcan : (t - 1) * (z - 1) / (t - 1) = z - 1 :=
      Nat.mul_div_cancel_left _ (by omega)
    omega

/-- Fancy indexing with all-valid indices is a total selection. -/
theorem filterMap_get_all_valid {α : Type} (l : List α) (d : α) :
    ∀ idxs : List ℕ, (∀ i ∈ idxs, i < l.length) →
      idxs.filterMap (fun i => l.get? i) = idxs.map (fun i => l.getD i d) := by
  intro idxs
  induction idxs with
  | nil => intro _; rfl
  | cons i is ih =>
    intro h
    have hi : i < l.length := h i (by simp)
    have hrest : ∀ j ∈ is, j < l.length := fun j hj => h j (by simp [hj])
    rw [List.filterMap_cons, List.map_cons, ih hrest,
      List.get?_eq_getElem?, List.getElem?_eq_getElem hi,
      List.getD_eq_getElem?_getD, List.getElem?_eq_getElem hi]
    rfl

set_option maxRecDepth 4000 in
/-- C7 counterexample: with resampling enabled, target 32 and a 120-slice
volume (slice i carrying value i), the slice at output position 1 is slice
3 — the truncation of 119/31 — whereas rounding the evenly spaced position
gives index 4; the output is not the rounded-index selection. -/
theorem resample_slices_not_round_selected :
    (resample_slices false 32 (List.range 120)).getD 1 0 = 3
    ∧ (round ((1 * (120 - 1) : ℚ) / (32 - 1))).toNat = 4 := by
  constructor
  · decide
  · have h4 : round ((1 * (120 - 1) : ℚ) / (32 - 1)) = 4 := by
      norm_num [round_eq]
    rw [h4]
    rfl

/-- C7 amended: with resampling enabled and a positive target T, a volume
with at most T slices is returned unchanged (never upsampled); a larger
volume yields exactly T slices, the j-th being the slice at the truncated
(floored) evenly spaced position j*(Z-1)/(T-1) — truncation, not
rounding. -/
theorem resample_slices_floor_selection {α : Type} (d : α) (vol : List α)
    (T : Int) (hT : 0 < T) :
    ((vol.length : Int) ≤ T → resample_slices false T vol = vol)
    ∧ (T < (vol.length : Int) →
        (resample_slices false T vol).length = T.toNat
        ∧ ∀ j : ℕ, j < T.toNat →
            (resample_slices false T vol).getD j d
              = vol.getD (j * (vol.length - 1) / (T.toNat - 1)) d) := by
  have hT0 : ¬(T ≤ 0) := by omega
  constructor
  · intro hle
    simp [resample_slices, hT0, hle]
  · intro hlt
    have hnotle : ¬((vol.length : Int) ≤ T) := by omega
    have hres : resample_slices false T vol
        = (linspace_int_indices vol.length T.toNat).filterMap
            (fun i => vol.get? i) := by
      simp [resample_slices, hT0, hnotle]
    have hz : 0 < vol.length := by omega
    have hvalid : ∀ i ∈ linspace_int_indices vol.length T.toNat, i < vol.length :=
      linspace_int_indices_lt _ _ hz
    have hmap := filterMap_get_all_valid vol d _ hvalid
    refine ⟨?_, ?_⟩
    · rw [hres, hmap, List.length_map, linspace_int_indices_length]
    · intro j hj
      rw [hres, hmap]
      have hjlen : j < ((linspace_int_indices vol.length T.toNat).map
          (fun i => vol.getD i d)).length := by
        rw [List.length_map, linspace_int_indices_length]
        exact hj
      rw [List.getD_eq_getElem?_getD, List.getElem?_eq_getElem hjlen]
      simp only [List.getElem_map, Option.getD_some]
      congr 1
      have hform := linspace_int_indices_getD vol.length T.toNat j 0 hj
      rw [List.getD_eq_getElem?_getD,
        List.getElem?_eq_getElem (by rw [linspace_int_indices_length]; exact hj)]
        at hform
      simpa using hform

set_option maxRecDepth 4000 in
/-- C7 witness for the amended claim: 120 slices, target 32. -/
theorem resample_slices_floor_selection_witness :
    ((0 : Int) < 32)
    ∧ ((((List.range 120).length : Int) ≤ 32 →
          resample_slices false 32 (List.range 120) = List.range 120)
      ∧ (32 < ((List.range 120).length : Int) →
          (resample_slices false 32 (List.range 120)).length = (32 : Int).toNat
          ∧ ∀ j : ℕ, j < (32 : Int).toNat →
              (resample_slices false 32 (List.range 120)).getD j 0
                = (List.range 120).getD
                    (j * ((List.range 120).length - 1) / ((32 : Int).toNat - 1)) 0)) :=
  ⟨by decide, resample_slices_floor_selection 0 (List.range 120) 32 (by decide)⟩

theorem fillNonFinite_map_fin (l : List ℚ) :
    fillNonFinite (l.map FloatVal.fin) = l := by
  unfold fillNonFinite
  rw [List.map_map]
  show List.map (fun q : ℚ => q) l = l
  exact List.map_id' l

/-- A non-empty all-finite volume never fails the all-non-finite test. -/
theorem all_nonfinite_map_fin (l : List ℚ) (hne : l ≠ []) :
    (l.map FloatVal.fin).all (fun v => !v.isFiniteVal) = false := by
  cases l with
  | nil => exact absurd rfl hne
  | cons x xs => simp [FloatVal.isFiniteVal]

/-- C10: for every non-empty volume, intensity normalization raises exactly
when the volume has no finite value; otherwise it succeeds, producing only
finite values (the output lives in ℚ), and it computes on the volume with
every non-finite voxel already replaced by the minimum finite value — the
replacement happens before any window or percentile computation. -/
theorem normalize_intensity_nonfinite_safety (vol : List FloatVal)
    (m h : Option String) (hne : vol ≠ []) :
    ((∀ v ∈ vol, v.isFiniteVal = false) ↔
      normalize_intensity vol m h
        = Except.error "Input volume has no finite intensity values")
    ∧ ((∃ v ∈ vol, v.isFiniteVal = true) →
        normalize_intensity vol m h
            = normalize_intensity ((fillNonFinite vol).map FloatVal.fin) m h
          ∧ normalize_intensity vol m h
            = Except.ok (normalize_filled (fillNonFinite vol) m h)) := by
  have hemp : vol.isEmpty = false := by
    cases vol with
    | nil => exact absurd rfl hne
    | cons x xs => rfl
  by_cases hA : vol.all (fun v => !v.isFiniteVal) = true
  · have hforall : ∀ v ∈ vol, v.isFiniteVal = false := by
      intro v hv
      have := (List.all_eq_true.mp hA) v hv
      simpa using this
    refine ⟨⟨fun _ => ?_, fun _ => hforall⟩, fun hex => ?_⟩
    · simp [normalize_intensity, hemp, hA]
    · obtain ⟨v, hv, hfin⟩ := hex
      rw [hforall v hv] at hfin
      exact absurd hfin (by simp)
  · have hok : normalize_intensity vol m h
        = Except.ok (normalize_filled (fillNonFinite vol) m h) := by
      simp [normalize_intensity, hemp, hA]
    constructor
    · constructor
      · intro hforall
        exact absurd (List.all_eq_true.mpr (fun v hv => by simp [hforall v hv])) hA
      · intro herr
        rw [hok] at herr
        exact absurd herr (by simp)
    · intro _
      refine ⟨?_, hok⟩
      rw [hok]
      have hne2 : fillNonFinite vol ≠ [] := by
        unfold fillNonFinite
        simpa using hne
      rw [normalize_intensity]
      rw [if_neg (by simpa using hne2)]
      rw [if_neg (by rw [all_nonfinite_map_fin _ hne2]; simp)]
      rw [fillNonFinite_map_fin]

/-- Normalizing a non-empty all-finite volume reduces to `normalize_filled`
on the plain rational volume. -/
theorem normalize_intensity_map_fin (vol : List ℚ) (m h : Option String)
    (hne : vol ≠ []) :
    normalize_intensity (vol.map FloatVal.fin) m h
      = Except.ok (normalize_filled vol m h) := by
  have hemp : (vol.map FloatVal.fin).isEmpty = false := by
    cases vol with
    | nil => exact absurd rfl hne
    | cons x xs => rfl
  rw [normalize_intensity, if_neg (by simp [hemp]),
    if_neg (by rw [all_nonfinite_map_fin vol hne]; simp), fillNonFinite_map_fin]

/-- The lung preset resolves whenever a lung keyword occurs in the
lowercased, stripped hint, and its window is width 1500, level -160. -/
theorem resolve_ct_window_lung (hint : String)
    (hlung : lungTokens.any
      (fun t => strContainsToken (pyLower (pyStrip hint)) t) = true) :
    resolve_ct_window (some hint) = (1500, -160) := by
  unfold resolve_ct_window resolve_ct_window_preset_name
  rw [Option.getD_some, if_pos hlung]
  rfl

/-- CT windowing formula for a lung-keyword hint on a non-empty all-finite
volume not already within [0,255]: clip to [-910, 590], then rescale that
range linearly onto [0,255]. -/
theorem ct_lung_formula (vol : List ℚ) (hint : String) (hne : vol ≠ [])
    (hlung : lungTokens.any
      (fun t => strContainsToken (pyLower (pyStrip hint)) t) = true)
    (hrange : ¬(0 ≤ listMin vol ∧ listMax vol ≤ 255)) :
    normalize_intensity (vol.map FloatVal.fin) (some "CT") (some hint)
      = Except.ok (vol.map (fun x =>
          clipQ 0 255 ((clipQ (-910) 590 x - (-910)) / 1500 * 255))) := by
  rw [normalize_intensity_map_fin vol _ _ hne]
  unfold normalize_filled
  rw [if_neg hrange, if_pos (by decide), resolve_ct_window_lung hint hlung]
  have hlow : ((1500 : ℚ), (-160 : ℚ)).2 - ((1500 : ℚ), (-160 : ℚ)).1 / 2 = -910 := by
    norm_num
  have hhigh : ((1500 : ℚ), (-160 : ℚ)).2 + ((1500 : ℚ), (-160 : ℚ)).1 / 2 = 590 := by
    norm_num
  rw [hlow, hhigh]
  unfold rescale_to_255
  rw [if_neg (by norm_num)]
  rw [List.map_map]
  refine congrArg Except.ok (List.map_congr_left (fun x _ => ?_))
  show clipQ 0 255 ((clipQ (-910) 590 x - (-910)) / (590 - (-910)) * 255)
      = clipQ 0 255 ((clipQ (-910) 590 x - (-910)) / 1500 * 255)
  norm_num

/-- C6: for CT modality with a lung-keyword hint and data not already
within [0,255], normalization uses window width 1500 and level -160, clips
every voxel to [-910, 590] and rescales linearly onto [0,255]; the input
[-1200, -160, 700] yields [0, 127.5, 255] — minimum 0, maximum 255 and
value 255/2 at the level. -/
theorem ct_lung_windowing (vol : List ℚ) (hint : String) (hne : vol ≠ [])
    (hlung : lungTokens.any
      (fun t => strContainsToken (pyLower (pyStrip hint)) t) = true)
    (hrange : ¬(0 ≤ listMin vol ∧ listMax vol ≤ 255)) :
    resolve_ct_window (some hint) = (1500, -160)
    ∧ normalize_intensity (vol.map FloatVal.fin) (some "CT") (some hint)
        = Except.ok (vol.map (fun x =>
            clipQ 0 255 ((clipQ (-910) 590 x - (-910)) / 1500 * 255)))
    ∧ normalize_intensity ([(-1200 : ℚ), -160, 700].map FloatVal.fin)
        (some "CT") (some "chest, lung nodule")
        = Except.ok [0, 255 / 2, 255] := by
  refine ⟨resolve_ct_window_lung hint hlung, ct_lung_formula vol hint hne hlung hrange, ?_⟩
  rw [ct_lung_formula [(-1200 : ℚ), -160, 700] "chest, lung nodule" (by decide)
    (by decide) (by decide)]
  congr 1
  simp only [List.map_cons, List.map_nil]
  refine congrArg₂ _ ?_ (congrArg₂ _ ?_ (congrArg₂ _ ?_ rfl)) <;>
    · simp only [clipQ]
      norm_num [min_def, max_def]

/-- C6 witness: all hypotheses discharged at the concrete example. -/
theorem ct_lung_windowing_witness :
    (([(-1200 : ℚ), -160, 700] : List ℚ) ≠ [])
    ∧ normalize_intensity ([(-1200 : ℚ), -160, 700].map FloatVal.fin)
        (some "CT") (some "chest, lung nodule")
        = Except.ok [0, 255 / 2, 255] :=
  ⟨by decide,
    (ct_lung_windowing [(-1200 : ℚ), -160, 700] "chest, lung nodule"
      (by decide) (by decide) (by decide)).2.2⟩

/-- C10 witness: a volume with one NaN and one finite voxel. -/
theorem normalize_intensity_nonfinite_safety_witness :
    ([FloatVal.nan, FloatVal.fin 300] ≠ ([] : List FloatVal))
    ∧ (((∀ v ∈ [FloatVal.nan, FloatVal.fin 300], v.isFiniteVal = false) ↔
        normalize_intensity [FloatVal.nan, FloatVal.fin 300] none none
          = Except.error "Input volume has no finite intensity values")
      ∧ ((∃ v ∈ [FloatVal.nan, FloatVal.fin 300], v.isFiniteVal = true) →
          normalize_intensity [FloatVal.nan, FloatVal.fin 300] none none
              = normalize_intensity
                  ((fillNonFinite [FloatVal.nan, FloatVal.fin 300]).map FloatVal.fin)
                  none none
            ∧ normalize_intensity [FloatVal.nan, FloatVal.fin 300] none none
              = Except.ok
                  (normalize_filled (fillNonFinite [FloatVal.nan, FloatVal.fin 300])
                    none none))) :=
  ⟨by decide,
    normalize_intensity_nonfinite_safety [FloatVal.nan, FloatVal.fin 300]
      none none (by decide)⟩

/-! ## Segmentation legend

`StudyViewSet._build_segments_legend_from_arrays`,
`_extract_label_from_prompt` and `_legend_color_for_label`
(src/vizier_backend/apps/studies/views.py lines 914-1009). -/

/-- The fixed color palette of `_legend_color_for_label`. -/
def legendPalette : List String :=
  ["#e11d48", "#2563eb", "#059669", "#f59e0b", "#7c3aed",
   "#db2777", "#0891b2", "#16a34a", "#dc2626", "#8b5cf6",
   "#0ea5e9", "#84cc16"]

/-- `_legend_color_for_label`: palette[int(label_id) % len(palette)].
Lean integer `%` is Euclidean (non-negative for a positive modulus),
matching the Python modulo. -/
def legend_color_for_label (label_id : Int) : String :=
  legendPalette.getD (label_id % 12).toNat ""

/-- Python str.find: the first index where `needle` starts in `hay`
(none for -1). -/
def str_find (hay needle : String) : Option Nat :=
  (List.range (hay.toList.length + 1)).find?
    (fun i => charsStartWith needle.toList (hay.toList.drop i))

/-- One iteration of the prefix loop in `_extract_label_from_prompt`:
if the lowered text starts with `pre` and contains " in " strictly after
the prefix, return the stripped slice of the original text between them. -/
def extract_label_try (text lowered pre : String) : Option String :=
  if charsStartWith pre.toList lowered.toList then
    match str_find lowered " in " with
    | some in_idx =>
      if pre.toList.length < in_idx then
        some (pyStrip (String.mk ((text.toList.take in_idx).drop pre.toList.length)))
      else none
    | none => none
  else none

/-- `_extract_label_from_prompt`: strip the prompt; try the two known
sentence openings, cutting the span between the opening and the trailing
" in ..." clause; otherwise return the whole stripped text. -/
def extract_label_from_prompt (prompt_text : String) : String :=
  let text := pyStrip prompt_text
  if text = "" then ""
  else
    match extract_label_try text (pyLower text) "visualization of " with
    | some r => r
    | none =>
      match extract_label_try text (pyLower text) "segmentation of " with
      | some r => r
      | none => text

/-- `np.rint`: round half to even. -/
def rintQ (q : ℚ) : Int :=
  if q - Int.floor q < 1 / 2 then Int.floor q
  else if 1 / 2 < q - Int.floor q then Int.floor q + 1
  else if Int.floor q % 2 = 0 then Int.floor q else Int.floor q + 1

/-- `astype(np.int32)`: wrap into [-2^31, 2^31). -/
def int32cast (x : Int) : Int := (x + 2 ^ 31) % 2 ^ 32 - 2 ^ 31

/-- Mask arrays arrive either with an integer dtype or as floats. -/
inductive MaskArray
  | ints (l : List Int)
  | floats (l : List FloatVal)
deriving DecidableEq, Repr

/-- The float-mask conversion of the source: np.nan_to_num with NaN and
both infinities mapped to the instance label, then np.rint, then
astype(np.int32). -/
def nan_to_num_rint (instance_label : Int) (v : FloatVal) : Int :=
  int32cast (rintQ (match v with
    | FloatVal.fin q => q
    | _ => (instance_label : ℚ)))

/-- The integer label view of a mask (`segs` after the dtype branch). -/
def mask_int_labels (m : MaskArray) (instance_label : Int) : List Int :=
  match m with
  | MaskArray.ints l => l
  | MaskArray.floats l => l.map (nan_to_num_rint instance_label)

/-- One legend dict as built by the loop body. -/
structure LegendEntry where
  id : Int
  label : String
  prompt : String
  voxels : ℕ
  fraction : ℚ
  percentage : ℚ
  color : String
deriving DecidableEq, Repr

/-- Python round(x, 4), half to even at 4 decimal places. -/
def roundTo4 (x : ℚ) : ℚ := (rintQ (x * 10000) : ℚ) / 10000

/-- The loop body of `_build_segments_legend_from_arrays` for one label:
prompt looked up by the stringified id (missing or falsy becomes the empty
string, then stripped), short label extracted with the "Label id"
fallback, voxel count, fraction of total, and deterministic color. -/
def legend_entry_for (segs : List Int) (text_prompts : List (String × String))
    (val : Int) : LegendEntry :=
  { id := val,
    label :=
      if extract_label_from_prompt
          (pyStrip ((text_prompts.lookup (toString val)).getD "")) = "" then
        "Label " ++ toString val
      else
        extract_label_from_prompt
          (pyStrip ((text_prompts.lookup (toString val)).getD "")),
    prompt := pyStrip ((text_prompts.lookup (toString val)).getD ""),
    voxels := segs.count val,
    fraction :=
      if segs.length = 0 then 0 else (segs.count val : ℚ) / (segs.length : ℚ),
    percentage :=
      roundTo4 ((if segs.length = 0 then 0
        else (segs.count val : ℚ) / (segs.length : ℚ)) * 100),
    color := legend_color_for_label val }

instance legendVoxDescDec :
    DecidableRel (fun a b : LegendEntry => b.voxels ≤ a.voxels) :=
  fun _ _ => Nat.decLe _ _

instance legendVoxDescTotal :
    IsTotal LegendEntry (fun a b => b.voxels ≤ a.voxels) :=
  ⟨fun a b => (le_total b.voxels a.voxels).imp id id⟩

instance legendVoxDescTrans :
    IsTrans LegendEntry (fun a b => b.voxels ≤ a.voxels) :=
  ⟨fun _ _ _ hab hbc => le_trans hbc hab⟩

/-- `_build_segments_legend_from_arrays`
(src/vizier_backend/apps/studies/views.py lines 968-1009): empty masks give
an empty legend; the distinct labels (np.unique: ascending sorted without
duplicates) are walked, the background/instance label skipped, one entry
per remaining label; finally the list is sorted by voxel count descending
(Python stable sort with reverse=True, modelled by a stable insertion sort
on the flipped relation). -/
def build_segments_legend_from_arrays (m : MaskArray)
    (text_prompts : List (String × String)) (instance_label : Int) :
    List LegendEntry :=
  let segs := mask_int_labels m instance_label
  if segs.isEmpty then []
  else
    ((segs.dedup.insertionSort (· ≤ ·)).filterMap (fun val =>
        if val = instance_label then none
        else some (legend_entry_for segs text_prompts val))).insertionSort
      (fun a b => b.voxels ≤ a.voxels)

/-- Membership in the legend entry pool: exactly the non-background labels
present in the mask, one entry each. -/
theorem mem_legend_pool (segs : List Int) (tp : List (String × String))
    (bg : Int) (e : LegendEntry) :
    e ∈ (segs.dedup.insertionSort (· ≤ ·)).filterMap (fun val =>
        if val = bg then none else some (legend_entry_for segs tp val))
      ↔ ∃ v, v ∈ segs ∧ v ≠ bg ∧ e = legend_entry_for segs tp v := by
  rw [List.mem_filterMap]
  constructor
  · rintro ⟨v, hv, hfv⟩
    by_cases hvbg : v = bg
    · simp [hvbg] at hfv
    · rw [if_neg hvbg] at hfv
      exact ⟨v, by rwa [List.mem_insertionSort, List.mem_dedup] at hv, hvbg,
        (Option.some_inj.mp hfv).symm⟩
  · rintro ⟨v, hvseg, hvbg, rfl⟩
    exact ⟨v, by rwa [List.mem_insertionSort, List.mem_dedup], by rw [if_neg hvbg]⟩

/-- C8: for every integer mask and prompt map, the legend has pairwise
distinct label ids; its ids are exactly the distinct labels present in the
mask minus the background label; each entry carries that label's voxel
count, its fraction of total voxels, the stripped prompt looked up by the
stringified id, the short label extracted from the prompt with the
"Label id" fallback, and the palette color at id mod palette size; the
entries are sorted by voxel count descending; and a float mask is first
rounded (NaN/inf to the background label, round half to even, int32 cast)
and then treated as an integer mask. -/
theorem legend_spec (segs : List Int) (tp : List (String × String)) (bg : Int) :
    ((build_segments_legend_from_arrays (MaskArray.ints segs) tp bg).map
        LegendEntry.id).Nodup
    ∧ (∀ v : Int,
        (∃ e ∈ build_segments_legend_from_arrays (MaskArray.ints segs) tp bg,
            e.id = v)
          ↔ (v ∈ segs ∧ v ≠ bg))
    ∧ (∀ e ∈ build_segments_legend_from_arrays (MaskArray.ints segs) tp bg,
        e.voxels = segs.count e.id
        ∧ e.fraction = (segs.count e.id : ℚ) / (segs.length : ℚ)
        ∧ e.color = legendPalette.getD (e.id % 12).toNat ""
        ∧ e.prompt = pyStrip ((tp.lookup (toString e.id)).getD "")
        ∧ e.label = (if extract_label_from_prompt e.prompt = ""
            then "Label " ++ toString e.id
            else extract_label_from_prompt e.prompt))
    ∧ List.Sorted (fun a b => b.voxels ≤ a.voxels)
        (build_segments_legend_from_arrays (MaskArray.ints segs) tp bg)
    ∧ (∀ l : List FloatVal,
        build_segments_legend_from_arrays (MaskArray.floats l) tp bg
          = build_segments_legend_from_arrays
              (MaskArray.ints (l.map (nan_to_num_rint bg))) tp bg) := by
  by_cases hemp : segs.isEmpty
  · have hnil : segs = [] := List.isEmpty_iff.mp hemp
    subst hnil
    refine ⟨?_, ?_, ?_, ?_, fun l => rfl⟩ <;>
      simp [build_segments_legend_from_arrays, mask_int_labels, List.Sorted]
  · have hlen0 : segs.length ≠ 0 := by
      cases segs with
      | nil => simp at hemp
      | cons a l => simp
    have hLdef : build_segments_legend_from_arrays (MaskArray.ints segs) tp bg
        = ((segs.dedup.insertionSort (· ≤ ·)).filterMap (fun val =>
            if val = bg then none else some (legend_entry_for segs tp val))).insertionSort
          (fun a b => b.voxels ≤ a.voxels) := by
      simp [build_segments_legend_from_arrays, mask_int_labels, hemp]
    have hperm :
        List.Perm
          (build_segments_legend_from_arrays (MaskArray.ints segs) tp bg)
          ((segs.dedup.insertionSort (· ≤ ·)).filterMap (fun val =>
              if val = bg then none else some (legend_entry_for segs tp val))) := by
      rw [hLdef]
      exact List.perm_insertionSort _ _
    have hmemL : ∀ e, e ∈ build_segments_legend_from_arrays (MaskArray.ints segs) tp bg
        ↔ ∃ v, v ∈ segs ∧ v ≠ bg ∧ e = legend_entry_for segs tp v := by
      intro e
      rw [hperm.mem_iff]
      exact mem_legend_pool segs tp bg e
    refine ⟨?_, ?_, ?_, ?_, fun l => rfl⟩
    · have hnodupUniq : (segs.dedup.insertionSort (· ≤ ·)).Nodup :=
        ((List.perm_insertionSort _ _).nodup_iff).mpr (List.nodup_dedup segs)
      have hnodupE : ((segs.dedup.insertionSort (· ≤ ·)).filterMap (fun val =>
          if val = bg then none else some (legend_entry_for segs tp val))).Nodup := by
        refine hnodupUniq.filterMap ?_
        intro a a' b hb hb'
        by_cases hab : a = bg
        · simp [hab] at hb
        by_cases hab' : a' = bg
        · simp [hab'] at hb'
        rw [Option.mem_def, if_neg hab] at hb
        rw [Option.mem_def, if_neg hab'] at hb'
        have h1 : b.id = a := by rw [← Option.some_inj.mp hb]; rfl
        have h2 : b.id = a' := by rw [← Option.some_inj.mp hb']; rfl
        rw [← h1, ← h2]
      have hinj : ∀ x ∈ (segs.dedup.insertionSort (· ≤ ·)).filterMap (fun val =>
            if val = bg then none else some (legend_entry_for segs tp val)),
          ∀ y ∈ (segs.dedup.insertionSort (· ≤ ·)).filterMap (fun val =>
            if val = bg then none else some (legend_entry_for segs tp val)),
          x.id = y.id → x = y := by
        intro x hx y hy hxy
        obtain ⟨vx, _, _, rfl⟩ := (mem_legend_pool segs tp bg x).mp hx
        obtain ⟨vy, _, _, rfl⟩ := (mem_legend_pool segs tp bg y).mp hy
        have : vx = vy := hxy
        rw [this]
      exact ((hperm.map LegendEntry.id).nodup_iff).mpr (hnodupE.map_on hinj)
    · intro v
      constructor
      · rintro ⟨e, heL, rfl⟩
        obtain ⟨w, hwseg, hwbg, rfl⟩ := (hmemL e).mp heL
        exact ⟨hwseg, hwbg⟩
      · rintro ⟨hvseg, hvbg⟩
        exact ⟨legend_entry_for segs tp v,
          (hmemL _).mpr ⟨v, hvseg, hvbg, rfl⟩, rfl⟩
    · intro e heL
      obtain ⟨v, hvseg, hvbg, rfl⟩ := (hmemL e).mp heL
      refine ⟨rfl, ?_, rfl, rfl, rfl⟩
      show (if segs.length = 0 then 0
          else (segs.count v : ℚ) / (segs.length : ℚ))
        = (segs.count v : ℚ) / (segs.length : ℚ)
      rw [if_neg hlen0]
    · rw [hLdef]
      exact List.sorted_insertionSort _ _

/-- C8 witness: the spec example — labels 0 (background), 1, 2 with two
lesion prompts. -/
theorem legend_spec_witness :
    ((build_segments_legend_from_arrays
        (MaskArray.ints [0, 0, 0, 1, 2, 2])
        [("1", "Visualization of lesion A in chest CT"),
         ("2", "Visualization of lesion B in chest CT")] 0).map
        LegendEntry.id).Nodup
    ∧ (∀ v : Int,
        (∃ e ∈ build_segments_legend_from_arrays
            (MaskArray.ints [0, 0, 0, 1, 2, 2])
            [("1", "Visualization of lesion A in chest CT"),
             ("2", "Visualization of lesion B in chest CT")] 0,
            e.id = v)
          ↔ (v ∈ [(0 : Int), 0, 0, 1, 2, 2] ∧ v ≠ 0))
    ∧ (∀ e ∈ build_segments_legend_from_arrays
          (MaskArray.ints [0, 0, 0, 1, 2, 2])
          [("1", "Visualization of lesion A in chest CT"),
           ("2", "Visualization of lesion B in chest CT")] 0,
        e.voxels = [(0 : Int), 0, 0, 1, 2, 2].count e.id
        ∧ e.fraction = ([(0 : Int), 0, 0, 1, 2, 2].count e.id : ℚ)
            / (([(0 : Int), 0, 0, 1, 2, 2] : List Int).length : ℚ)
        ∧ e.color = legendPalette.getD (e.id % 12).toNat ""
        ∧ e.prompt = pyStrip
            (([("1", "Visualization of lesion A in chest CT"),
               ("2", "Visualization of lesion B in chest CT")].lookup
                (toString e.id)).getD "")
        ∧ e.label = (if extract_label_from_prompt e.prompt = ""
            then "Label " ++ toString e.id
            else extract_label_from_prompt e.prompt))
    ∧ List.Sorted (fun a b => b.voxels ≤ a.voxels)
        (build_segments_legend_from_arrays
          (MaskArray.ints [0, 0, 0, 1, 2, 2])
          [("1", "Visualization of lesion A in chest CT"),
           ("2", "Visualization of lesion B in chest CT")] 0)
    ∧ (∀ l : List FloatVal,
        build_segments_legend_from_arrays (MaskArray.floats l)
            [("1", "Visualization of lesion A in chest CT"),
             ("2", "Visualization of lesion B in chest CT")] 0
          = build_segments_legend_from_arrays
              (MaskArray.ints (l.map (nan_to_num_rint 0)))
              [("1", "Visualization of lesion A in chest CT"),
               ("2", "Visualization of lesion B in chest CT")] 0) :=
  legend_spec [0, 0, 0, 1, 2, 2]
    [("1", "Visualization of lesion A in chest CT"),
     ("2", "Visualization of lesion B in chest CT")] 0

/-! ## DICOM pipeline, shape level

Shape and dtype bookkeeping for the three conversion entry points of
`DicomZipToNpzService` (src/vizier_backend/services/dicom_pipeline.py):
`_load_series` + `_preprocess` (DICOM archive), `convert_nifti_to_npz`
(3D volume file with header) and `preprocess_existing_npz` (pre-canonical
NPZ). Voxel values are irrelevant to these claims and are modelled
value-level above; `_normalize_intensity` is shape preserving (it maps
voxelwise), so it does not appear in the shape bookkeeping. -/

/-- An ndarray as far as shapes and dtypes are concerned. -/
structure NdArr where
  shape : List ℕ
  dtype : String
deriving DecidableEq, Repr

/-- np.squeeze on the shape: drop all singleton axes. -/
def squeeze_shape (s : List ℕ) : List ℕ := s.filter (fun d => d ≠ 1)

/-- `_coerce_3d_volume`: keep a rank-3 array, squeeze to rank 3 when
possible, otherwise raise. -/
def coerce_3d_volume (a : NdArr) : Except String NdArr :=
  if a.shape.length = 3 then Except.ok a
  else if (squeeze_shape a.shape).length = 3 then
    Except.ok ⟨squeeze_shape a.shape, a.dtype⟩
  else Except.error "Expected a 3D volume"

/-- `_resize_xy` shape bookkeeping: cv2.resize of every slice to
dsize (tw, th) — output (th, tw) per 2D slice, (th, tw, c) per 3D slice
with at most 512 channels; stacking zero slices, a slice of another rank
or too many channels raises. -/
def resize_xy_shape (th tw : ℕ) (s : List ℕ) : Except String (List ℕ) :=
  match s with
  | [z, _, _] =>
      if z = 0 then Except.error "need at least one array to stack"
      else Except.ok [z, th, tw]
  | [z, _, _, c] =>
      if z = 0 then Except.error "need at least one array to stack"
      else if 0 < c ∧ c ≤ 512 then Except.ok [z, th, tw, c]
      else Except.error "cv2: bad number of channels"
  | _ => Except.error "cv2: resize expects a 2D or 3D slice"

/-- `_resample_slices` shape bookkeeping, tied to the value-level model:
the slice count becomes the length the value-level resampling produces. -/
def resample_shape (keep : Bool) (target : Int) (s : List ℕ) : List ℕ :=
  match s with
  | [] => []
  | z :: rest => (resample_slices keep target (List.range z)).length :: rest

/-- `_preprocess` shape bookkeeping: float32 cast, shape-preserving
normalization, resize, resample, float16 cast. -/
def preprocess_shape (th tw : ℕ) (keep : Bool) (target : Int) (a : NdArr) :
    Except String NdArr :=
  match resize_xy_shape th tw a.shape with
  | Except.error e => Except.error e
  | Except.ok sr => Except.ok ⟨resample_shape keep target sr, "float16"⟩

/-- One DICOM slice as `_load_series` sees it: its pixel-array shape, and
the (SliceThickness, PixelSpacing[0], PixelSpacing[1]) metadata when the
attributes parse (None otherwise). Slices are listed in their sorted
order. -/
structure DicomSlice where
  pixShape : List ℕ
  spacingMeta : Option (ℚ × ℚ × ℚ)
deriving DecidableEq, Repr

/-- `_load_series`: at least one slice is required; np.stack needs equal
pixel-array shapes; the spacing is the first slice's metadata — None when
that slice lacks the attributes. -/
def load_series_shape (slices : List DicomSlice) :
    Except String (NdArr × Option (ℚ × ℚ × ℚ)) :=
  match slices with
  | [] => Except.error "No DICOM slices found"
  | s0 :: rest =>
    if rest.all (fun s => s.pixShape == s0.pixShape) then
      Except.ok (⟨(rest.length + 1) :: s0.pixShape, "source"⟩, s0.spacingMeta)
    else Except.error "all input arrays must have the same shape"

/-- A NIfTI image as the converter sees it: data shape and header zooms
(nibabel yields one zoom per axis). -/
structure NiftiImg where
  shape : List ℕ
  zooms : List ℚ
deriving DecidableEq, Repr

/-- `convert_nifti_to_npz` shape bookkeeping: coerce to 3D, transpose
(2,1,0) — the reverse of a rank-3 shape —, take the first three header
zooms (an IndexError when fewer than three exist) reversed into (z,y,x)
order, then the standard preprocessing chain with a float16 cast. -/
def convert_nifti_shapes (th tw : ℕ) (keep : Bool) (target : Int)
    (img : NiftiImg) : Except String (NdArr × List ℚ) :=
  match coerce_3d_volume ⟨img.shape, "source"⟩ with
  | Except.error e => Except.error e
  | Except.ok v3 =>
    if (img.zooms.take 3).length = 3 then
      match preprocess_shape th tw keep target ⟨v3.shape.reverse, "float32"⟩ with
      | Except.error e => Except.error e
      | Except.ok out => Except.ok (out, (img.zooms.take 3).reverse)
    else Except.error "IndexError: fewer than three spacing components"

/-- The image-key candidates of `preprocess_existing_npz`. -/
def image_key_candidates : List String := ["imgs", "image", "images", "data"]

/-- `preprocess_existing_npz` shape bookkeeping: find the first image key
present, coerce to 3D, run the preprocessing chain, and rebuild the
payload — imgs always, spacing and text_prompts only when present in the
input NPZ. -/
def preprocess_existing_npz (th tw : ℕ) (keep : Bool) (target : Int)
    (files : List (String × NdArr)) : Except String (List (String × NdArr)) :=
  match image_key_candidates.find? (fun k => (files.lookup k).isSome) with
  | none =>
    Except.error
      "NPZ must contain image data under one of keys: imgs, image, images, data"
  | some k =>
    match coerce_3d_volume ((files.lookup k).getD ⟨[], "object"⟩) with
    | Except.error e => Except.error e
    | Except.ok v3 =>
      match preprocess_shape th tw keep target v3 with
      | Except.error e => Except.error e
      | Except.ok out =>
        Except.ok ([("imgs", out)]
          ++ (match files.lookup "spacing" with
              | some sp => [("spacing", sp)]
              | none => [])
          ++ (match files.lookup "text_prompts" with
              | some t => [("text_prompts", t)]
              | none => []))

/-- A successful 3D coercion yields rank 3, keeps the dtype, and needs an
input of rank at least 3. -/
theorem coerce_3d_volume_ok (a v3 : NdArr)
    (h : coerce_3d_volume a = Except.ok v3) :
    v3.shape.length = 3 ∧ v3.dtype = a.dtype ∧ 3 ≤ a.shape.length := by
  unfold coerce_3d_volume at h
  split_ifs at h with h1 h2
  · cases h
    exact ⟨h1, rfl, by omega⟩
  · cases h
    exact ⟨h2, rfl, by
      have := List.length_filter_le (fun d => d ≠ 1) a.shape
      unfold squeeze_shape at h2
      omega⟩

/-- Preprocessing a rank-3 array yields a rank-3 float16 array. -/
theorem preprocess_shape_rank3 (th tw : ℕ) (keep : Bool) (target : Int)
    (a out : NdArr) (h3 : a.shape.length = 3)
    (hok : preprocess_shape th tw keep target a = Except.ok out) :
    out.shape.length = 3 ∧ out.dtype = "float16" := by
  obtain ⟨z, y, x, hs⟩ := List.length_eq_three.mp h3
  by_cases hz : z = 0
  · simp [preprocess_shape, resize_xy_shape, hs, hz] at hok
  · simp only [preprocess_shape, resize_xy_shape, hs] at hok
    rw [if_neg hz] at hok
    cases hok
    exact ⟨rfl, rfl⟩

/-- C4 counterexample: a pre-canonical NPZ without a spacing entry is
normalized successfully, but the output carries no spacing at all — the
volume is not accompanied by a length-3 spacing vector. -/
theorem npz_without_spacing_counterexample :
    preprocess_existing_npz 256 256 true 128
        [("imgs", NdArr.mk [4, 5, 6] "float32")]
      = Except.ok [("imgs", NdArr.mk [4, 256, 256] "float16")]
    ∧ ([("imgs", NdArr.mk [4, 256, 256] "float16")].lookup "spacing") = none := by
  exact ⟨rfl, rfl⟩

/-- C4 amended: every successfully normalized output volume is float16;
the pre-canonical path yields rank 3 and carries the input spacing over
exactly when present (omitting it otherwise); the volume-file path yields
rank 3 with a length-3 spacing vector; the DICOM path yields rank 3
whenever every kept slice is 2D, and propagates the first slice's optional
spacing metadata, which may be None. -/
theorem normalized_volume_shape_spec :
    (∀ (th tw : ℕ) (keep : Bool) (target : Int) files out,
        preprocess_existing_npz th tw keep target files = Except.ok out →
        (∃ a : NdArr, out.lookup "imgs" = some a
            ∧ a.shape.length = 3 ∧ a.dtype = "float16")
          ∧ out.lookup "spacing" = files.lookup "spacing")
    ∧ (∀ (th tw : ℕ) (keep : Bool) (target : Int) (img : NiftiImg) arr sp,
        img.zooms.length = img.shape.length →
        convert_nifti_shapes th tw keep target img = Except.ok (arr, sp) →
        arr.shape.length = 3 ∧ arr.dtype = "float16" ∧ sp.length = 3)
    ∧ (∀ (s0 : DicomSlice) rest arr meta (th tw : ℕ) (keep : Bool)
          (target : Int) out,
        (∀ s ∈ s0 :: rest, s.pixShape.length = 2) →
        load_series_shape (s0 :: rest) = Except.ok (arr, meta) →
        preprocess_shape th tw keep target arr = Except.ok out →
        out.shape.length = 3 ∧ out.dtype = "float16" ∧ meta = s0.spacingMeta) := by
  refine ⟨?_, ?_, ?_⟩
  · intro th tw keep target files out hok
    unfold preprocess_existing_npz at hok
    cases hfind : image_key_candidates.find? (fun k => (files.lookup k).isSome) with
    | none => rw [hfind] at hok; cases hok
    | some k =>
      rw [hfind] at hok
      dsimp only at hok
      cases hco : coerce_3d_volume ((files.lookup k).getD ⟨[], "object"⟩) with
      | error e => rw [hco] at hok; cases hok
      | ok v3 =>
        rw [hco] at hok
        dsimp only at hok
        cases hpp : preprocess_shape th tw keep target v3 with
        | error e => rw [hpp] at hok; cases hok
        | ok img =>
          rw [hpp] at hok
          dsimp only at hok
          cases hok
          have hrank := preprocess_shape_rank3 th tw keep target v3 img
            (coerce_3d_volume_ok _ _ hco).1 hpp
          have hk : k ≠ "spacing" := by
            have hkmem := List.mem_of_find?_eq_some hfind
            intro hkeq
            rw [hkeq] at hkmem
            simp [image_key_candidates] at hkmem
          constructor
          · exact ⟨img, rfl, hrank.1, hrank.2⟩
          · cases hsp : files.lookup "spacing" with
            | none =>
              cases htp : files.lookup "text_prompts" with
              | none => simp
              | some t =>
                simp only [List.cons_append, List.nil_append]
                rfl
            | some sp =>
              simp only [List.cons_append, List.nil_append]
              rfl
  · intro th tw keep target img arr sp hz hok
    unfold convert_nifti_shapes at hok
    cases hco : coerce_3d_volume ⟨img.shape, "source"⟩ with
    | error e => rw [hco] at hok; cases hok
    | ok v3 =>
      rw [hco] at hok
      dsimp only at hok
      obtain ⟨h3, _, hge⟩ := coerce_3d_volume_ok _ _ hco
      have hge2 : 3 ≤ img.shape.length := by simpa using hge
      have htake : (img.zooms.take 3).length = 3 := by
        rw [List.length_take]
        omega
      rw [if_pos htake] at hok
      cases hpp : preprocess_shape th tw keep target ⟨v3.shape.reverse, "float32"⟩ with
      | error e => rw [hpp] at hok; cases hok
      | ok out =>
        rw [hpp] at hok
        dsimp only at hok
        cases hok
        have hrank := preprocess_shape_rank3 th tw keep target _ arr
          (by simpa using h3) hpp
        exact ⟨hrank.1, hrank.2, by rw [List.length_reverse]; exact htake⟩
  · intro s0 rest arr meta th tw keep target out h2d hload hpp
    unfold load_series_shape at hload
    dsimp only at hload
    split_ifs at hload with hstack
    · cases hload
      have harr : ((rest.length + 1) :: s0.pixShape).length = 3 := by
        have := h2d s0 (by simp)
        simp [this]
      have hrank := preprocess_shape_rank3 th tw keep target _ out harr hpp
      exact ⟨hrank.1, hrank.2, rfl⟩

/-- C4 witness for the amended claim: the three paths at concrete
inputs. -/
theorem normalized_volume_shape_spec_witness :
    ((∃ a : NdArr,
        ([("imgs", NdArr.mk [4, 256, 256] "float16")].lookup "imgs") = some a
          ∧ a.shape.length = 3 ∧ a.dtype = "float16")
      ∧ ([("imgs", NdArr.mk [4, 256, 256] "float16")].lookup "spacing")
          = ([("imgs", NdArr.mk [4, 5, 6] "float32")].lookup "spacing"))
    ∧ ((NdArr.mk [4, 256, 256] "float16").shape.length = 3
      ∧ (NdArr.mk [4, 256, 256] "float16").dtype = "float16"
      ∧ ([(3 : ℚ), 2, 1] : List ℚ).length = 3)
    ∧ ((NdArr.mk [2, 256, 256] "float16").shape.length = 3
      ∧ (NdArr.mk [2, 256, 256] "float16").dtype = "float16"
      ∧ (some ((1 : ℚ), (2 : ℚ), (3 : ℚ)))
          = (DicomSlice.mk [5, 6] (some (1, 2, 3))).spacingMeta) := by
  refine ⟨?_, ?_, ?_⟩
  · exact normalized_volume_shape_spec.1 256 256 true 128
      [("imgs", NdArr.mk [4, 5, 6] "float32")]
      [("imgs", NdArr.mk [4, 256, 256] "float16")] rfl
  · exact normalized_volume_shape_spec.2.1 256 256 true 128
      ⟨[6, 5, 4], [1, 2, 3]⟩ (NdArr.mk [4, 256, 256] "float16") [3, 2, 1]
      rfl rfl
  · exact normalized_volume_shape_spec.2.2 ⟨[5, 6], some (1, 2, 3)⟩
      [⟨[5, 6], none⟩] (NdArr.mk [2, 5, 6] "source") (some (1, 2, 3))
      256 256 true 128 (NdArr.mk [2, 256, 256] "float16")
      (by decide) rfl rfl

end Vizier
